import Mathlib

/-!
Verification of the build-log aggregation core (`package logs` of the repository):
`GetTektonPipelinesWithActivePipelineActivity`, `GetRunningBuildLogs`,
`waitForContainerToStart` and `StreamPipelinePersistentLogs` are embedded as
executable Lean functions over explicit environments that supply the results of
the platform queries (PipelineActivity lists, PipelineRun lists, build-pod lists,
pod gets, writer calls).  Go maps are modelled as association lists with
last-write-wins insert; the unbounded `for` loops are modelled with an explicit
fuel parameter, `none` meaning the loop has not terminated within the given fuel.
Collaborator functions of the repository that are not part of the shown source
(`builds.GetBuildPods`, `builds.CreateBuildPodInfo`, `kube.HasContainerStarted`,
`kube.GetContainersWithStatusAndIsInit`, `buckets.ReadURL`) are modelled from the
specification; each such definition is marked in its doc comment.
-/

namespace JxLogs

/-- Errors as produced by the Go code: a base message (`errors.New`) or a
wrapping of a cause with a context message (`errors.Wrap`/`Wrapf`). -/
inductive JError where
  | msg  : String → JError
  | wrap : String → JError → JError
deriving DecidableEq

/-- Lookup in a Go `map[string]string`: a missing key yields the empty string. -/
def lookupD (l : List (String × String)) (k : String) : String :=
  match l.find? (fun p => p.1 == k) with
  | some p => p.2
  | none => ""

/-- Key-presence/value lookup in a Go map modelled as an association list. -/
def mapLookup {α : Type} (m : List (String × α)) (k : String) : Option α :=
  (m.find? (fun p => p.1 == k)).map Prod.snd

/-- Go map assignment `m[k] = v`: last write wins. -/
def mapInsert {α : Type} (m : List (String × α)) (k : String) (v : α) :
    List (String × α) :=
  m.filter (fun p => p.1 != k) ++ [(k, v)]

/-- Go `delete(m, k)`. -/
def mapDelete {α : Type} (m : List (String × α)) (k : String) :
    List (String × α) :=
  m.filter (fun p => p.1 != k)

/-- Go map used as a set of strings (`map[string]bool` whose entries are only
ever set to `true`): a duplicate-free list.  `len` of the map is the length. -/
def insertIfAbsent (l : List String) (a : String) : List String :=
  if a ∈ l then l else l ++ [a]

/-- Merging one string-set map into another
(`for k, v := range src { dst[k] = v }`). -/
def mergeLogged (dst src : List String) : List String :=
  src.foldl insertIfAbsent dst

/-- `color.New(color.FgGreen)` with color enabled: `c.Sprintf` wraps its
argument in the ANSI green escape sequence. -/
def green (s : String) : String := "\x1b[32m" ++ s ++ "\x1b[0m"

/-- Go `strings.ToLower`, defined character-wise over the string's data so
that it computes by kernel reduction (ASCII case folding, which is what the
labels in play use). -/
def strToLower (s : String) : String := String.mk (s.data.map Char.toLower)

/-- A `v1.PipelineActivity`: its metadata name and namespace, the attributes of
`Spec` used by the code (`GitOwner`, `GitRepository`, `GitBranch`, `Build`) and
its labels. -/
structure PipelineActivity where
  name : String
  ns : String
  gitOwner : String
  gitRepository : String
  gitBranch : String
  build : String
  labels : List (String × String)
deriving DecidableEq

/-- A Tekton `PipelineRun`: name, creation timestamp (abstracted to `Nat`),
labels, and the declared `Spec.Params` (name/value pairs). -/
structure PipelineRun where
  name : String
  creationTs : Nat
  labels : List (String × String)
  params : List (String × String)
deriving DecidableEq

/-- A container of a build pod together with its observed started state.
Modelled from the spec: a sub-task has a name and a start/ready state. -/
structure KContainer where
  name : String
  started : Bool
deriving DecidableEq

/-- Pod lifecycle phase (`corev1.PodPhase`). -/
inductive PodPhase where
  | pending | running | succeeded | failed
deriving DecidableEq

/-- A build pod: name, creation timestamp, labels, phase and its ordered
containers. -/
structure Pod where
  name : String
  creationTs : Nat
  labels : List (String × String)
  phase : PodPhase
  containers : List KContainer
deriving DecidableEq

/- ----------------------------------------------------------------------
Name Correlator (lines 859-881 of the source)
---------------------------------------------------------------------- -/

/-- `createPipelineActivityName` (source lines 859-866): canonical identity key
`owner/repository/branch #buildNumber`, lower-cased; the repository label is
`repository` on the PipelineActivity side and falls back to `repo` (the
PipelineRun CRD name) when empty. -/
def createPipelineActivityName (labels : List (String × String))
    (buildNumber : String) : String :=
  let repository := lookupD labels "repository"
  let repository := if repository = "" then lookupD labels "repo" else repository
  strToLower (lookupD labels "owner" ++ "/" ++ repository ++ "/"
    ++ lookupD labels "branch" ++ " #" ++ buildNumber)

/-- `findLegacyPipelineRunBuildNumber` (source lines 873-881): scan the run's
declared params for one named `build_id`; the last occurrence wins. -/
def findLegacyPipelineRunBuildNumber (pipelineRun : PipelineRun) : String :=
  pipelineRun.params.foldl (fun acc p => if p.1 = "build_id" then p.2 else acc) ""

/-- The canonical key of a PipelineRun as computed in the loop of
`GetTektonPipelinesWithActivePipelineActivity` (source lines 844-848): the
`build` label, recovered from the legacy `build_id` param when empty, fed to
`createPipelineActivityName`. -/
def runCanonicalKey (pr : PipelineRun) : String :=
  let prBuildNumber := lookupD pr.labels "build"
  let prBuildNumber :=
    if prBuildNumber = "" then findLegacyPipelineRunBuildNumber pr
    else prBuildNumber
  createPipelineActivityName pr.labels prBuildNumber

/-- The disambiguated name appended for a matched run (source line 850):
the plain canonical key followed by a space and the `context` label. -/
def enrichedRunName (pr : PipelineRun) : String :=
  runCanonicalKey pr ++ " " ++ lookupD pr.labels "context"

/-- `replacePipelineActivityNameWithEnrichedName` (source lines 868-871):
`paMap[newName] = paMap[formerName]; delete(paMap, formerName)`.  Map values
are `Option PipelineActivity` because the Go map stores (possibly nil)
pointers: reading a missing key yields a nil pointer that would be stored
under the new name. -/
def replacePipelineActivityNameWithEnrichedName
    (paMap : List (String × Option PipelineActivity))
    (formerName newName : String) : List (String × Option PipelineActivity) :=
  mapDelete (mapInsert paMap newName ((mapLookup paMap formerName).join)) formerName

/- ----------------------------------------------------------------------
Activity/Run Matcher (lines 819-857 of the source)
---------------------------------------------------------------------- -/

/-- Environment of `GetTektonPipelinesWithActivePipelineActivity`: the results
of the two (label-filtered) list queries against the stores. -/
structure TektonEnv where
  paList : Except JError (List PipelineActivity)
  prList : Except JError (List PipelineRun)

/-- Accumulator of the matching loop (source lines 842-854).  `matched` is
ghost instrumentation: the sub-sequence of runs for which the map lookup
succeeded, in processing order; it is used only to state ordering theorems and
does not influence `names` or `paMap`. -/
structure TektonAcc where
  names : List String
  paMap : List (String × Option PipelineActivity)
  matched : List PipelineRun

/-- One step of the matching loop body (source lines 843-854). -/
def tektonStep (acc : TektonAcc) (pr : PipelineRun) : TektonAcc :=
  let paName := runCanonicalKey pr
  match mapLookup acc.paMap paName with
  | some _ =>
    let nameWithContext := paName ++ " " ++ lookupD pr.labels "context"
    { names := acc.names ++ [nameWithContext]
      paMap := replacePipelineActivityNameWithEnrichedName acc.paMap paName nameWithContext
      matched := acc.matched ++ [pr] }
  | none => acc

/-- The PipelineRun items used by the matcher: the error of the PipelineRuns
list query is discarded by the source (`tektonPRs, _ := ...List(...)`, line
834), leaving the empty item list of the zero-valued result on failure. -/
def tektonPRItems (env : TektonEnv) : List PipelineRun :=
  match env.prList with
  | .error _ => []
  | .ok l => l

/-- The runs sorted by creation timestamp, descending (source lines 838-840:
`sort.Slice` with `After` as the less function). -/
def tektonSortedPRs (env : TektonEnv) : List PipelineRun :=
  List.insertionSort (fun a b => b.creationTs ≤ a.creationTs) (tektonPRItems env)

/-- The initial map from canonical activity name to activity
(source lines 828-832), last write wins on duplicate keys. -/
def initPaMap (pas : List PipelineActivity) :
    List (String × Option PipelineActivity) :=
  pas.foldl (fun m p => mapInsert m (createPipelineActivityName p.labels p.build) (some p)) []

/-- `GetTektonPipelinesWithActivePipelineActivity` (source lines 820-857). -/
def GetTektonPipelinesWithActivePipelineActivity (env : TektonEnv) :
    Except JError (List String × List (String × Option PipelineActivity)) :=
  match env.paList with
  | .error e => .error (.wrap "there was a problem getting the PipelineActivities" e)
  | .ok pas =>
    let acc := (tektonSortedPRs env).foldl tektonStep ⟨[], initPaMap pas, []⟩
    .ok (acc.names, acc.paMap)

/-- The names component of the matcher's result (empty on error). -/
def tektonNames (env : TektonEnv) : List String :=
  match GetTektonPipelinesWithActivePipelineActivity env with
  | .ok r => r.1
  | .error _ => []

/-- The ghost list of matched runs, in processing order. -/
def tektonMatched (env : TektonEnv) : List PipelineRun :=
  match env.paList with
  | .error _ => []
  | .ok pas => ((tektonSortedPRs env).foldl tektonStep ⟨[], initPaMap pas, []⟩).matched

/- ----------------------------------------------------------------------
Live Log Streamer / Completion Tracker (lines 883-992 of the source)
---------------------------------------------------------------------- -/

/-- `builds.LabelPipelineRunName`.  Modelled from the spec: the label under
which a build pod declares the pipeline run it belongs to (the constant lives
in the repository's `builds` package, absent from src/). -/
def labelPipelineRunName : String := "tekton.dev/pipelineRun"

/-- Modelled from the spec: `builds.CreateBuildPodInfo` (absent from src/)
extracts the organisation / repository / branch / build-number attributes of a
build pod from its labels. -/
structure BuildPodInfo where
  organisation : String
  repository : String
  branch : String
  build : String

/-- Modelled from the spec: `builds.CreateBuildPodInfo` (absent from src/). -/
def CreateBuildPodInfo (p : Pod) : BuildPodInfo :=
  ⟨lookupD p.labels "owner", lookupD p.labels "repository",
   lookupD p.labels "branch", lookupD p.labels "build"⟩

/-- Modelled from the spec: `kube.GetContainersWithStatusAndIsInit` (absent
from src/) returns the ordered containers of the pod (the status and is-init
components are discarded by the callers shown in the source). -/
def getContainers (p : Pod) : List KContainer := p.containers

/-- Modelled from the spec: `kube.HasContainerStarted` (absent from src/):
whether the sub-task at the given index reports started. -/
def hasContainerStarted (p : Pod) (idx : Nat) : Bool :=
  match p.containers.get? idx with
  | some c => c.started
  | none => false

/-- The selection predicate of source lines 929-930 (minus the `!seen`
conjunct, which is handled at the call site): the pod's build info matches the
activity's owner, repository, branch (case-insensitively) and build number. -/
def matchesActivity (pa : PipelineActivity) (p : Pod) : Bool :=
  let params := CreateBuildPodInfo p
  params.organisation == pa.gitOwner && params.repository == pa.gitRepository &&
    strToLower params.branch == strToLower pa.gitBranch && params.build == pa.build

/-- Observable events of one `GetRunningBuildLogs` call.  `headerLine` and
`waitLine` are `writer.WriteLog` invocations, `streamCall` is a
`writer.StreamLog` invocation, `processWarn` is a `log.Logger().Warn*` line
sent to the process log (not the writer).  `headerLine` and `streamCall`
additionally record (as ghost data) the 1-based loop iteration in which they
happened and the pipeline-run label of the matched pod that triggered them. -/
inductive LogEvent where
  | headerLine : Nat → String → String → LogEvent
  | waitLine : String → LogEvent
  | streamCall : Nat → String → String → String → LogEvent
  | processWarn : String → LogEvent
deriving DecidableEq

/-- Environment of one `GetRunningBuildLogs` call.  The stores are queried
repeatedly, so their results are indexed by a call counter: `activityRuns k`
is the result of the k-th `PipelineRuns(...).List` with the activity's
owner/repo/branch/build selector (k = 0 at entry, k = i after loop iteration
i); `buildPods k` is the result of `builds.GetBuildPods` in iteration k+1;
`podGet t name` is the result of the t-th `Pods(ns).Get` of the whole call.
The writer's results depend only on the written payload. -/
structure StreamEnv where
  activityRuns : Nat → Except JError (List PipelineRun)
  buildPods : Nat → Except JError (List Pod)
  podGet : Nat → String → Except JError Pod
  writeLog : String → Except JError Unit
  streamLog : String → Pod → KContainer → Except JError Unit

/-- `getPipelineRunNamesForActivity` (source lines 883-898) at its k-th
invocation: list the runs matching the activity's selector and project their
names. -/
def getPipelineRunNamesForActivity (env : StreamEnv) (k : Nat) :
    Except JError (List String) :=
  match env.activityRuns k with
  | .error e => .error e
  | .ok prs => .ok (prs.map (fun pr => pr.name))

/-- The zero value `&corev1.Pod{}` returned by a failed client `Get`. -/
def emptyPod : Pod := ⟨"", 0, [], .pending, []⟩

/-- The polling `for` loop of `waitForContainerToStart` (source lines
981-991): sleep, re-`Get` the pod by its (original) name, return the error on
a failed `Get`, return the fresh pod once the container has started.  `wfuel`
bounds the number of polls; `none` means the poll loop has not finished within
`wfuel` rounds. -/
def waitPoll (env : StreamEnv) (podName : String) (idx : Nat) :
    Nat → Nat → Option (Pod × Option JError × Nat)
  | 0, _tick => none
  | wfuel + 1, tick =>
    match env.podGet tick podName with
    | .error e =>
      some (emptyPod, some (.wrap ("failed to load pod " ++ podName) e), tick + 1)
    | .ok p =>
      if hasContainerStarted p idx then some (p, none, tick + 1)
      else waitPoll env podName idx wfuel (tick + 1)

/-- The "waiting for pod ... container ... to start" line written before the
poll loop (source line 978), with the container name taken from the current
pod's containers at the given index (source lines 970-974). -/
def waitingLine (pod : Pod) (idx : Nat) : String :=
  "waiting for pod " ++ green pod.name ++ " container " ++
    green (match (getContainers pod).get? idx with
           | some c => c.name
           | none => "") ++ " to start...\n"

/-- `waitForContainerToStart` (source lines 962-992).  Returns the (possibly
refreshed) pod, the error component of the Go return value, the advanced
pod-`Get` counter and the events it produced.  A failing `WriteLog` of the
waiting line is only warned about on the process log (source lines 978-980). -/
def waitForContainerToStart (env : StreamEnv) (pod : Pod) (idx : Nat)
    (wfuel tick : Nat) : Option (Pod × Option JError × Nat × List LogEvent) :=
  if pod.phase = .failed then
    some (pod, none, tick, [.processWarn ("pod " ++ pod.name ++ " has failed")])
  else if hasContainerStarted pod idx then
    some (pod, none, tick, [])
  else
    match waitPoll env pod.name idx wfuel tick with
    | none => none
    | some (p, e, tick') =>
      match env.writeLog (waitingLine pod idx) with
      | .ok _ => some (p, e, tick', [LogEvent.waitLine (waitingLine pod idx)])
      | .error _ =>
        some (p, e, tick',
          [LogEvent.waitLine (waitingLine pod idx),
           .processWarn "There was a problem writing a single line into the writeFN"])

/-- The inner `for i, ic := range containers` loop of `GetRunningBuildLogs`
(source lines 934-944) for one matched pod.  `i` is the container index, `pod`
the current pod variable (replaced by each `waitForContainerToStart` result;
its error component is overwritten unchecked by the subsequent `WriteLog`
assignment, exactly as in the source).  Returns the final pod variable, the
advanced pod-`Get` counter, the produced events, and the error on which the
enclosing function would return (`none` when the loop ran to completion). -/
def showingLine (buildName stageName containerName : String) : String :=
  "Showing logs for build " ++ green buildName ++ " stage " ++ green stageName
    ++ " and container " ++ green containerName ++ "\n"

def streamPodContainers (env : StreamEnv) (ns buildName stageName runName : String)
    (iter wfuel : Nat) :
    Nat → Pod → List KContainer → Nat → Option (Pod × Nat × List LogEvent × Option JError)
  | _i, pod, [], tick => some (pod, tick, [], none)
  | i, pod, ic :: rest, tick =>
    match waitForContainerToStart env pod i wfuel tick with
    | none => none
    | some (pod', _errOverwritten, tick', evs₁) =>
      match env.writeLog (showingLine buildName stageName ic.name) with
      | .error e =>
        some (pod', tick',
          evs₁ ++ [LogEvent.headerLine iter runName (showingLine buildName stageName ic.name)],
          some (.wrap "there was a problem writing a single line into the logs writer" e))
      | .ok _ =>
        match env.streamLog ns pod' ic with
        | .error e =>
          some (pod', tick',
            evs₁ ++ [LogEvent.headerLine iter runName (showingLine buildName stageName ic.name),
              .streamCall iter runName pod'.name ic.name],
            some (.wrap "there was a problem writing into the stream writer" e))
        | .ok _ =>
          match streamPodContainers env ns buildName stageName runName iter wfuel
              (i + 1) pod' rest tick' with
          | none => none
          | some (podF, tickF, evsF, r) =>
            some (podF, tickF,
              evs₁ ++ [LogEvent.headerLine iter runName (showingLine buildName stageName ic.name),
                .streamCall iter runName pod'.name ic.name] ++ evsF, r)

/-- The `for _, pod := range pods` loop of one iteration (source lines
923-946).  `logged` is `pipelineRunsLogged` (read-only here), `seen` is
`runsSeenForPods`, `found` is `foundLogs`.  Returns the updated seen-set,
found flag, pod-`Get` counter, events, and the error on which the enclosing
function returns. -/
def processPods (env : StreamEnv) (pa : PipelineActivity) (buildName : String)
    (iter wfuel : Nat) (logged : List String) :
    List Pod → List String → Bool → Nat →
    Option (List String × Bool × Nat × List LogEvent × Option JError)
  | [], seen, found, tick => some (seen, found, tick, [], none)
  | pod :: rest, seen, found, tick =>
    if lookupD pod.labels labelPipelineRunName ∉ logged ∧ matchesActivity pa pod = true then
      match streamPodContainers env pa.ns buildName
          (lookupD pod.labels "jenkins.io/task-stage-name")
          (lookupD pod.labels labelPipelineRunName) iter wfuel
          0 pod (getContainers pod) tick with
      | none => none
      | some (_, tick', evs, some e) =>
        some (insertIfAbsent seen (lookupD pod.labels labelPipelineRunName),
          true, tick', evs, some e)
      | some (_, tick', evs, none) =>
        match processPods env pa buildName iter wfuel logged rest
            (insertIfAbsent seen (lookupD pod.labels labelPipelineRunName))
            true tick' with
        | none => none
        | some (seenF, foundF, tickF, evsF, r) =>
          some (seenF, foundF, tickF, evs ++ evsF, r)
    else
      processPods env pa buildName iter wfuel logged rest seen found tick

/-- State of the `GetRunningBuildLogs` loop between iterations. -/
structure LoopState where
  logged : List String
  foundLogs : Bool
  iter : Nat
  tick : Nat
  events : List LogEvent

instance {ε α : Type} [DecidableEq ε] [DecidableEq α] :
    DecidableEq (Except ε α) := fun a b =>
  match a, b with
  | .error e, .error e' =>
    if h : e = e' then .isTrue (by rw [h]) else .isFalse (by simp [h])
  | .ok v, .ok v' =>
    if h : v = v' then .isTrue (by rw [h]) else .isFalse (by simp [h])
  | .error _, .ok _ => .isFalse (by simp)
  | .ok _, .error _ => .isFalse (by simp)

/-- Result of a terminated `GetRunningBuildLogs` call: the number of completed
or attempted loop iterations (each iteration performs exactly one
`builds.GetBuildPods` query), the events, and the returned value. -/
structure RunResult where
  iterations : Nat
  events : List LogEvent
  result : Except JError Unit
deriving DecidableEq

/-- The distinct terminal condition of source line 956. -/
def gcError : JError :=
  .msg "the build pods for this build have been garbage collected and the log was not found in the long term storage bucket"

/-- One iteration of the outer loop (source lines 909-954): list the build
pods (propagating a failure), sort them by creation time ascending, process
them, re-query the run names (propagating a failure), then merge the seen runs
into the logged set. -/
def runIteration (env : StreamEnv) (pa : PipelineActivity) (buildName : String)
    (wfuel : Nat) (st : LoopState) :
    Option (LoopState × Except JError (List String)) :=
  match env.buildPods st.iter with
  | .error e =>
    some ({ st with iter := st.iter + 1 },
      .error (.wrap ("failed to get build pods in namespace " ++ pa.ns) e))
  | .ok pods =>
    match processPods env pa buildName (st.iter + 1) wfuel st.logged
        (List.insertionSort (fun a b => a.creationTs ≤ b.creationTs) pods)
        [] st.foundLogs st.tick with
    | none => none
    | some (_, found, tick', evs, some e) =>
      some ({ st with
                iter := st.iter + 1, foundLogs := found, tick := tick',
                events := st.events ++ evs },
            .error e)
    | some (seen, found, tick', evs, none) =>
      match getPipelineRunNamesForActivity env (st.iter + 1) with
      | .error e =>
        some ({ st with
                  iter := st.iter + 1, foundLogs := found, tick := tick',
                  events := st.events ++ evs },
              .error (.wrap ("failed to get PipelineRun names for activity "
                ++ pa.name ++ " in namespace " ++ pa.ns) e))
      | .ok names' =>
        some ({ logged := mergeLogged st.logged seen, foundLogs := found,
                iter := st.iter + 1, tick := tick', events := st.events ++ evs },
              .ok names')

/-- The outer `for len(pipelineRunNames) > len(pipelineRunsLogged)` loop
(source lines 909-954) followed by the `foundLogs` check (lines 955-957).
`fuel` bounds the number of iterations; `none` means the loop has not exited
within `fuel` iterations. -/
def runLoop (env : StreamEnv) (pa : PipelineActivity) (buildName : String)
    (wfuel : Nat) : Nat → List String → LoopState → Option RunResult
  | fuel, names, st =>
    if names.length ≤ st.logged.length then
      some ⟨st.iter, st.events, if st.foundLogs then .ok () else .error gcError⟩
    else
      match fuel with
      | 0 => none
      | fuel + 1 =>
        match runIteration env pa buildName wfuel st with
        | none => none
        | some (st', .error e) => some ⟨st'.iter, st'.events, .error e⟩
        | some (st', .ok names') => runLoop env pa buildName wfuel fuel names' st'

/-- Unfolding equation of `runLoop` with the leading pattern match reduced. -/
theorem runLoop_unfold (env : StreamEnv) (pa : PipelineActivity)
    (buildName : String) (wfuel fuel : Nat) (names : List String)
    (st : LoopState) :
    runLoop env pa buildName wfuel fuel names st =
      if names.length ≤ st.logged.length then
        some ⟨st.iter, st.events, if st.foundLogs then .ok () else .error gcError⟩
      else
        match fuel with
        | 0 => none
        | fuel + 1 =>
          match runIteration env pa buildName wfuel st with
          | none => none
          | some (st', .error e) => some ⟨st'.iter, st'.events, .error e⟩
          | some (st', .ok names') => runLoop env pa buildName wfuel fuel names' st' := by
  rw [runLoop.eq_def]

/-- `GetRunningBuildLogs` (source lines 900-960). -/
def GetRunningBuildLogs (env : StreamEnv) (pa : PipelineActivity)
    (buildName : String) (wfuel fuel : Nat) : Option RunResult :=
  match getPipelineRunNamesForActivity env 0 with
  | .error e =>
    some ⟨0, [],
      .error (.wrap ("failed to get PipelineRun names for activity " ++ pa.name
        ++ " in namespace " ++ pa.ns) e)⟩
  | .ok names => runLoop env pa buildName wfuel fuel names ⟨[], false, 0, 0, []⟩

/-- The events of a (possibly non-terminated) `GetRunningBuildLogs` call. -/
def runEvents (o : Option RunResult) : List LogEvent :=
  match o with
  | none => []
  | some r => r.events

/-- Iteration count and returned value of a terminated call. -/
def runSummary (o : Option RunResult) : Option (Nat × Except JError Unit) :=
  o.map (fun r => (r.iterations, r.result))

/- ----------------------------------------------------------------------
Persisted Log Fetcher (lines 994-1016 of the source)
---------------------------------------------------------------------- -/

/-- Environment of the fallback path: the raw bucket read and the writer. -/
structure BucketEnv where
  fetch : String → Except JError String
  writeLog : String → Except JError Unit

/-- Modelled from the spec: `buckets.ReadURL` (absent from src/) performs a
bounded (20 time-unit) read of the object at the URL and surfaces any network
or authorization failure with the source URL attached for diagnostics. -/
def bucketsReadURL (env : BucketEnv) (urlText : String) (_timeoutSeconds : Nat) :
    Except JError String :=
  match env.fetch urlText with
  | .error e => .error (.wrap urlText e)
  | .ok data => .ok data

/-- `StreamPipelinePersistentLogs` (source lines 995-1002): read the bucket
URL with a 20-second deadline and hand the whole payload to the writer. -/
def StreamPipelinePersistentLogs (env : BucketEnv) (logsURL : String) :
    Except JError Unit :=
  match bucketsReadURL env logsURL 20 with
  | .error e => .error e
  | .ok data => env.writeLog data

/- ----------------------------------------------------------------------
Basic lemmas about the set/map helpers
---------------------------------------------------------------------- -/

theorem mem_insertIfAbsent {l : List String} {a b : String} :
    a ∈ insertIfAbsent l b ↔ a ∈ l ∨ a = b := by
  unfold insertIfAbsent
  split
  · rename_i hb
    constructor
    · exact fun h => Or.inl h
    · rintro (h | rfl)
      · exact h
      · exact hb
  · simp [List.mem_append]

theorem nodup_insertIfAbsent {l : List String} (h : l.Nodup) (b : String) :
    (insertIfAbsent l b).Nodup := by
  unfold insertIfAbsent
  split
  · exact h
  · rename_i hb
    simpa [List.nodup_append] using ⟨h, hb⟩

theorem subset_insertIfAbsent {l : List String} {a : String} (b : String)
    (h : a ∈ l) : a ∈ insertIfAbsent l b :=
  mem_insertIfAbsent.mpr (Or.inl h)

theorem mem_mergeLogged {dst src : List String} {a : String} :
    a ∈ mergeLogged dst src ↔ a ∈ dst ∨ a ∈ src := by
  induction src generalizing dst with
  | nil => simp [mergeLogged]
  | cons s rest ih =>
    show a ∈ mergeLogged (insertIfAbsent dst s) rest ↔ _
    rw [ih, mem_insertIfAbsent, List.mem_cons]
    tauto

theorem nodup_mergeLogged {dst : List String} (src : List String)
    (h : dst.Nodup) : (mergeLogged dst src).Nodup := by
  induction src generalizing dst with
  | nil => exact h
  | cons s rest ih => exact ih (nodup_insertIfAbsent h s)

/- ----------------------------------------------------------------------
Concrete fixtures used by witnesses and counterexamples
---------------------------------------------------------------------- -/

/-- A concrete activity: acme/widgets/master build 7 in namespace `jx`. -/
def fxPa : PipelineActivity :=
  ⟨"pa1", "jx", "acme", "widgets", "master", "7",
   [("owner", "acme"), ("repository", "widgets"), ("branch", "master")]⟩

/-- A build pod of run `r1` whose single container has started. -/
def fxPod : Pod :=
  ⟨"p1", 5,
   [("owner", "acme"), ("repository", "widgets"), ("branch", "master"),
    ("build", "7"), ("tekton.dev/pipelineRun", "r1"),
    ("jenkins.io/task-stage-name", "s")],
   .running, [⟨"step", true⟩]⟩

/-- A PipelineRun named `r1` matching `fxPa`. -/
def fxRun : PipelineRun :=
  ⟨"r1", 3,
   [("owner", "acme"), ("repo", "widgets"), ("branch", "master"),
    ("build", "7"), ("context", "ctx")], []⟩

/-- Happy-path environment: one run, one matching started pod, writer always
succeeds. -/
def fxEnvOk : StreamEnv :=
  ⟨fun _ => .ok [fxRun], fun _ => .ok [fxPod], fun _ _ => .ok fxPod,
   fun _ => .ok (), fun _ _ _ => .ok ()⟩

/-- Environment with no runs for the activity. -/
def fxEnvNoRuns : StreamEnv :=
  ⟨fun _ => .ok [], fun _ => .ok [fxPod], fun _ _ => .ok fxPod,
   fun _ => .ok (), fun _ _ _ => .ok ()⟩

/- ----------------------------------------------------------------------
C6: fallback fetch failures carry the source URL
---------------------------------------------------------------------- -/

/-- C6 (confirmed, spec-modelled): for every input URL, when the bounded
bucket read in `StreamPipelinePersistentLogs` fails, the error returned to the
caller carries the source logs URL attached as context. -/
theorem c6_fallback_error_carries_url (env : BucketEnv) (url : String)
    (e : JError) (h : env.fetch url = .error e) :
    StreamPipelinePersistentLogs env url = .error (.wrap url e) := by
  simp [StreamPipelinePersistentLogs, bucketsReadURL, h]

/-- Failing bucket environment for the C6 witness. -/
def fxBucketEnv : BucketEnv :=
  ⟨fun _ => .error (.msg "network failure"), fun _ => .ok ()⟩

/-- Witness for C6 at a concrete failing fetch. -/
theorem c6_fallback_error_carries_url_witness :
    StreamPipelinePersistentLogs fxBucketEnv "gs://bucket/log.txt" =
      .error (.wrap "gs://bucket/log.txt" (.msg "network failure")) :=
  c6_fallback_error_carries_url fxBucketEnv "gs://bucket/log.txt"
    (.msg "network failure") rfl

/- ----------------------------------------------------------------------
C8: legacy build_id param correlates like the modern build label
---------------------------------------------------------------------- -/

/-- C8 (confirmed): a run lacking the modern `build` label but declaring a
`build_id` param of value `"42"` is assigned the same canonical identity key
as a run carrying the modern label `"42"` (labels otherwise agreeing), and
hence correlates to the same execution record under any activity map. -/
theorem c8_legacy_build_number (pr1 pr2 : PipelineRun)
    (hb1 : lookupD pr1.labels "build" = "")
    (hleg : findLegacyPipelineRunBuildNumber pr1 = "42")
    (hb2 : lookupD pr2.labels "build" = "42")
    (ho : lookupD pr1.labels "owner" = lookupD pr2.labels "owner")
    (hrep : lookupD pr1.labels "repository" = lookupD pr2.labels "repository")
    (hrepo : lookupD pr1.labels "repo" = lookupD pr2.labels "repo")
    (hbr : lookupD pr1.labels "branch" = lookupD pr2.labels "branch") :
    runCanonicalKey pr1 = runCanonicalKey pr2 ∧
      ∀ (m : List (String × Option PipelineActivity)),
        mapLookup m (runCanonicalKey pr1) = mapLookup m (runCanonicalKey pr2) := by
  have hkey : runCanonicalKey pr1 = runCanonicalKey pr2 := by
    simp only [runCanonicalKey, createPipelineActivityName, hb1, hb2, hleg,
      ho, hrep, hrepo, hbr]
    simp
  exact ⟨hkey, fun m => by rw [hkey]⟩

/-- A run with only the legacy `build_id` param. -/
def fxLegacyRun : PipelineRun :=
  ⟨"L", 0, [("owner", "acme"), ("repo", "widgets"), ("branch", "master")],
   [("build_id", "42")]⟩

/-- A run with the modern `build` label. -/
def fxModernRun : PipelineRun :=
  ⟨"M", 0,
   [("owner", "acme"), ("repo", "widgets"), ("branch", "master"), ("build", "42")],
   []⟩

/-- Witness for C8 at the concrete legacy/modern pair. -/
theorem c8_legacy_build_number_witness :
    runCanonicalKey fxLegacyRun = runCanonicalKey fxModernRun ∧
      ∀ (m : List (String × Option PipelineActivity)),
        mapLookup m (runCanonicalKey fxLegacyRun) =
          mapLookup m (runCanonicalKey fxModernRun) :=
  c8_legacy_build_number fxLegacyRun fxModernRun (by decide) (by decide)
    (by decide) (by decide) (by decide) (by decide) (by decide)

/- ----------------------------------------------------------------------
C10: empty run-name list at entry
---------------------------------------------------------------------- -/

/-- C10 (confirmed): if the run-name query at entry returns the empty list,
`GetRunningBuildLogs` performs zero loop iterations (so it never queries the
build pods), produces no events (so the writer is never invoked) and returns
the distinct garbage-collected error. -/
theorem c10_empty_run_list (env : StreamEnv) (pa : PipelineActivity)
    (buildName : String) (wfuel fuel : Nat)
    (h : getPipelineRunNamesForActivity env 0 = .ok []) :
    GetRunningBuildLogs env pa buildName wfuel fuel =
      some ⟨0, [], .error gcError⟩ := by
  simp [GetRunningBuildLogs, h, runLoop.eq_def]

/-- Witness for C10 at a concrete empty-run-list environment. -/
theorem c10_empty_run_list_witness :
    GetRunningBuildLogs fxEnvNoRuns fxPa "b" 1 1 = some ⟨0, [], .error gcError⟩ :=
  c10_empty_run_list fxEnvNoRuns fxPa "b" 1 1 rfl

/- ----------------------------------------------------------------------
C2: behaviour when no pod ever matches the selection predicate
---------------------------------------------------------------------- -/

/-- `processPods` on a list of pods none of which matches the activity leaves
the seen-set, found flag and tick unchanged and produces no events and no
error. -/
theorem processPods_no_match (env : StreamEnv) (pa : PipelineActivity)
    (buildName : String) (iter wfuel : Nat) (logged : List String)
    (pods : List Pod) (hnm : ∀ p ∈ pods, matchesActivity pa p = false) :
    ∀ seen found tick,
      processPods env pa buildName iter wfuel logged pods seen found tick =
        some (seen, found, tick, [], none) := by
  induction pods with
  | nil => intro seen found tick; rfl
  | cons p rest ih =>
    intro seen found tick
    rw [processPods]
    rw [if_neg]
    · exact ih (fun q hq => hnm q (List.mem_cons_of_mem p hq)) seen found tick
    · intro hc
      rw [hnm p (List.mem_cons_self p rest)] at hc
      exact Bool.false_ne_true hc.2

/-- A non-matching-pods iteration with succeeding queries: the state is
unchanged except for the iteration counter. -/
theorem runIteration_no_match (env : StreamEnv) (pa : PipelineActivity)
    (buildName : String) (wfuel : Nat) (st : LoopState) (ps : List Pod)
    (names' : List String)
    (hp : env.buildPods st.iter = .ok ps)
    (hnm : ∀ p ∈ ps, matchesActivity pa p = false)
    (hn : getPipelineRunNamesForActivity env (st.iter + 1) = .ok names') :
    runIteration env pa buildName wfuel st =
      some (⟨st.logged, st.foundLogs, st.iter + 1, st.tick, st.events⟩,
        .ok names') := by
  have hnmSorted : ∀ p ∈ List.insertionSort
      (fun a b => a.creationTs ≤ b.creationTs) ps, matchesActivity pa p = false :=
    fun p hp' => hnm p ((List.perm_insertionSort _ ps).mem_iff.mp hp')
  have hpp := processPods_no_match env pa buildName (st.iter + 1) wfuel
    st.logged _ hnmSorted [] st.foundLogs st.tick
  simp only [runIteration, hp, hpp, hn, mergeLogged, List.foldl_nil,
    List.append_nil]

/-- When the queries always succeed, no pod ever matches, and `foundLogs` is
still false, a terminated loop returns the distinct garbage-collected
error. -/
theorem runLoop_no_match_gc (env : StreamEnv) (pa : PipelineActivity)
    (buildName : String) (wfuel : Nat)
    (h1 : ∀ k, ∃ l, env.activityRuns k = .ok l)
    (h2 : ∀ k, ∃ ps, env.buildPods k = .ok ps)
    (h3 : ∀ k ps, env.buildPods k = .ok ps → ∀ p ∈ ps, matchesActivity pa p = false) :
    ∀ (fuel : Nat) (names : List String) (st : LoopState) (res : RunResult),
      st.foundLogs = false →
      runLoop env pa buildName wfuel fuel names st = some res →
      res.result = .error gcError := by
  intro fuel
  induction fuel with
  | zero =>
    intro names st res hf hres
    rw [runLoop] at hres
    split at hres
    · cases hres
      simp [hf]
    · cases hres
  | succ n ih =>
    intro names st res hf hres
    rw [runLoop] at hres
    split at hres
    · cases hres
      simp [hf]
    · obtain ⟨ps, hps⟩ := h2 st.iter
      obtain ⟨l, hl⟩ := h1 (st.iter + 1)
      have hn : getPipelineRunNamesForActivity env (st.iter + 1) =
          .ok (l.map (fun pr => pr.name)) := by
        simp [getPipelineRunNamesForActivity, hl]
      have hit := runIteration_no_match env pa buildName wfuel st ps _ hps
        (h3 st.iter ps hps) hn
      simp only [hit] at hres
      exact ih _ ⟨st.logged, st.foundLogs, st.iter + 1, st.tick, st.events⟩
        res hf hres

/-- The claim "no matching pod implies termination with the distinct
condition" fails on the code whenever the recomputed run-name list stays
nonempty: the loop never exits.  This predicate states non-termination for
every iteration bound. -/
def loopsForeverOn (env : StreamEnv) (pa : PipelineActivity)
    (buildName : String) (wfuel : Nat) : Prop :=
  ∀ fuel, GetRunningBuildLogs env pa buildName wfuel fuel = none

/-- One visible run, no build pods at all: nothing ever matches. -/
def fxEnvNoPods : StreamEnv :=
  ⟨fun _ => .ok [fxRun], fun _ => .ok [], fun _ _ => .ok fxPod,
   fun _ => .ok (), fun _ _ _ => .ok ()⟩

/-- The loop body at an empty logged set and no pods recurses with an
unchanged (empty) logged set, so no fuel suffices. -/
theorem runLoop_fxEnvNoPods_none :
    ∀ (fuel : Nat) (st : LoopState), st.logged = [] →
      runLoop fxEnvNoPods fxPa "b" 1 fuel ["r1"] st = none := by
  intro fuel
  induction fuel with
  | zero =>
    intro st hlog
    rw [runLoop]
    rw [if_neg (by simp [hlog])]
  | succ n ih =>
    intro st hlog
    rw [runLoop]
    rw [if_neg (by simp [hlog])]
    have hit : runIteration fxEnvNoPods fxPa "b" 1 st =
        some (⟨st.logged, st.foundLogs, st.iter + 1, st.tick, st.events⟩,
          .ok ["r1"]) :=
      runIteration_no_match fxEnvNoPods fxPa "b" 1 st [] ["r1"] rfl
        (by intro p hp; cases hp) rfl
    rw [hit]
    exact ih _ hlog

/-- C2 counterexample: with run `r1` permanently visible and no matching pod
in any iteration, `GetRunningBuildLogs` does not terminate for any iteration
bound — it neither returns the garbage-collected condition nor any other
result. -/
theorem c2_counterexample_no_match_loops_forever :
    loopsForeverOn fxEnvNoPods fxPa "b" 1 := by
  intro fuel
  have h : GetRunningBuildLogs fxEnvNoPods fxPa "b" 1 fuel =
      runLoop fxEnvNoPods fxPa "b" 1 fuel ["r1"] ⟨[], false, 0, 0, []⟩ := rfl
  rw [h]
  exact runLoop_fxEnvNoPods_none fuel _ rfl

/-- C2 amended: if no pod ever matches the activity's selection predicate and
the platform queries succeed, then *whenever* `GetRunningBuildLogs`
terminates it returns the distinct garbage-collected condition — never a
generic error and never success; termination itself is not guaranteed (the
loop runs forever while the run-name list stays nonempty, as the
counterexample shows). -/
theorem c2_amended_gc_when_terminating (env : StreamEnv)
    (pa : PipelineActivity) (buildName : String) (wfuel : Nat)
    (h1 : ∀ k, ∃ l, env.activityRuns k = .ok l)
    (h2 : ∀ k, ∃ ps, env.buildPods k = .ok ps)
    (h3 : ∀ k ps, env.buildPods k = .ok ps → ∀ p ∈ ps, matchesActivity pa p = false) :
    ∀ (fuel : Nat) (res : RunResult),
      GetRunningBuildLogs env pa buildName wfuel fuel = some res →
      res.result = .error gcError := by
  intro fuel res h
  obtain ⟨l, hl⟩ := h1 0
  have hq : getPipelineRunNamesForActivity env 0 = .ok (l.map (fun pr => pr.name)) := by
    simp [getPipelineRunNamesForActivity, hl]
  rw [GetRunningBuildLogs, hq] at h
  exact runLoop_no_match_gc env pa buildName wfuel h1 h2 h3 fuel _ _ res rfl h

/-- No runs and no pods: the call terminates immediately. -/
def fxEnvEmpty : StreamEnv :=
  ⟨fun _ => .ok [], fun _ => .ok [], fun _ _ => .ok fxPod,
   fun _ => .ok (), fun _ _ _ => .ok ()⟩

/-- Witness for the amended C2 at a terminating no-match environment. -/
theorem c2_amended_gc_when_terminating_witness :
    RunResult.result ⟨0, [], .error gcError⟩ = .error gcError :=
  c2_amended_gc_when_terminating fxEnvEmpty fxPa "b" 1
    (fun _ => ⟨[], rfl⟩) (fun _ => ⟨[], rfl⟩)
    (fun _ ps hps p hp => by
      cases hps
      cases hp)
    1 ⟨0, [], .error gcError⟩ rfl

/- ----------------------------------------------------------------------
C4: which query failures propagate
---------------------------------------------------------------------- -/

/-- The errors the container-streaming loop can propagate: only wrapped
writer failures.  A pod-`Get` failure inside `waitForContainerToStart` is
never among them, because its error component is overwritten unchecked. -/
def isWriterWrap (e : JError) : Prop :=
  (∃ e', e = .wrap "there was a problem writing a single line into the logs writer" e') ∨
  (∃ e', e = .wrap "there was a problem writing into the stream writer" e')

/-- Every error propagated by the per-pod container loop is a wrapped writer
failure; in particular the error of a failed pod `Get` during the
wait-for-container poll never escapes. -/
theorem streamPodContainers_error_is_writer_error (env : StreamEnv)
    (ns buildName stageName runName : String) (iter wfuel : Nat) :
    ∀ (cs : List KContainer) (i : Nat) (pod : Pod) (tick : Nat)
      (p : Pod) (t : Nat) (evs : List LogEvent) (e : JError),
      streamPodContainers env ns buildName stageName runName iter wfuel
        i pod cs tick = some (p, t, evs, some e) →
      isWriterWrap e := by
  intro cs
  induction cs with
  | nil =>
    intro i pod tick p t evs e h
    rw [streamPodContainers] at h
    simp at h
  | cons ic rest ih =>
    intro i pod tick p t evs e h
    rw [streamPodContainers] at h
    split at h
    · cases h
    · split at h
      · simp only [Option.some.injEq, Prod.mk.injEq] at h
        obtain ⟨-, -, -, he⟩ := h
        cases he
        exact Or.inl ⟨_, rfl⟩
      · split at h
        · simp only [Option.some.injEq, Prod.mk.injEq] at h
          obtain ⟨-, -, -, he⟩ := h
          cases he
          exact Or.inr ⟨_, rfl⟩
        · split at h
          · cases h
          · rename_i podF tickF evsF r heq
            simp only [Option.some.injEq, Prod.mk.injEq] at h
            obtain ⟨-, -, -, he⟩ := h
            cases he
            exact ih _ _ _ _ _ _ _ heq

/-- The PipelineActivities list failure is propagated wrapped (source lines
824-826). -/
theorem tekton_paList_error_propagates (env : TektonEnv) (e : JError)
    (h : env.paList = .error e) :
    GetTektonPipelinesWithActivePipelineActivity env =
      .error (.wrap "there was a problem getting the PipelineActivities" e) := by
  simp [GetTektonPipelinesWithActivePipelineActivity, h]

/-- The PipelineRuns list failure inside the matcher is *discarded* (source
line 834): the call succeeds with no names and the initial activity map. -/
theorem tekton_prList_error_discarded (env : TektonEnv)
    (pas : List PipelineActivity) (e : JError)
    (hpa : env.paList = .ok pas) (hpr : env.prList = .error e) :
    GetTektonPipelinesWithActivePipelineActivity env = .ok ([], initPaMap pas) := by
  simp [GetTektonPipelinesWithActivePipelineActivity, tektonSortedPRs,
    tektonPRItems, hpa, hpr, List.insertionSort]

/-- The entry run-name query failure is propagated wrapped (source lines
902-905). -/
theorem runNames_error_propagates (env : StreamEnv) (pa : PipelineActivity)
    (buildName : String) (wfuel fuel : Nat) (e : JError)
    (h : getPipelineRunNamesForActivity env 0 = .error e) :
    GetRunningBuildLogs env pa buildName wfuel fuel =
      some ⟨0, [],
        .error (.wrap ("failed to get PipelineRun names for activity " ++ pa.name
          ++ " in namespace " ++ pa.ns) e)⟩ := by
  simp [GetRunningBuildLogs, h]

/-- A build-pod list failure in the first iteration is propagated wrapped
(source lines 910-913). -/
theorem buildPods_error_propagates (env : StreamEnv) (pa : PipelineActivity)
    (buildName : String) (wfuel fuel : Nat) (names : List String) (e : JError)
    (h0 : getPipelineRunNamesForActivity env 0 = .ok names)
    (hne : names ≠ [])
    (hbp : env.buildPods 0 = .error e) :
    GetRunningBuildLogs env pa buildName wfuel (fuel + 1) =
      some ⟨1, [],
        .error (.wrap ("failed to get build pods in namespace " ++ pa.ns) e)⟩ := by
  simp only [GetRunningBuildLogs, h0]
  rw [runLoop_unfold]
  rw [if_neg (by simp [hne])]
  have hit : runIteration env pa buildName wfuel ⟨[], false, 0, 0, []⟩ =
      some (⟨[], false, 1, 0, []⟩,
        .error (.wrap ("failed to get build pods in namespace " ++ pa.ns) e)) := by
    simp [runIteration, hbp]
  simp only [hit]

/-- C4 amended: the PipelineActivities list failure, the run-name query
failure and the build-pod list failure are each propagated immediately; but
(contrary to the claim) a PipelineRuns list failure inside
`GetTektonPipelinesWithActivePipelineActivity` is silently discarded — the
call succeeds with an empty name list — and a failing pod `Get` during the
wait-for-container poll is never returned: the streaming loop can only
propagate wrapped writer failures. -/
theorem c4_amended_error_propagation :
    (∀ (env : TektonEnv) (e : JError), env.paList = .error e →
      GetTektonPipelinesWithActivePipelineActivity env =
        .error (.wrap "there was a problem getting the PipelineActivities" e)) ∧
    (∀ (env : TektonEnv) (pas : List PipelineActivity) (e : JError),
      env.paList = .ok pas → env.prList = .error e →
      GetTektonPipelinesWithActivePipelineActivity env = .ok ([], initPaMap pas)) ∧
    (∀ (env : StreamEnv) (pa : PipelineActivity) (buildName : String)
      (wfuel fuel : Nat) (e : JError),
      getPipelineRunNamesForActivity env 0 = .error e →
      GetRunningBuildLogs env pa buildName wfuel fuel =
        some ⟨0, [],
          .error (.wrap ("failed to get PipelineRun names for activity " ++ pa.name
            ++ " in namespace " ++ pa.ns) e)⟩) ∧
    (∀ (env : StreamEnv) (pa : PipelineActivity) (buildName : String)
      (wfuel fuel : Nat) (names : List String) (e : JError),
      getPipelineRunNamesForActivity env 0 = .ok names → names ≠ [] →
      env.buildPods 0 = .error e →
      GetRunningBuildLogs env pa buildName wfuel (fuel + 1) =
        some ⟨1, [],
          .error (.wrap ("failed to get build pods in namespace " ++ pa.ns) e)⟩) ∧
    (∀ (env : StreamEnv) (ns buildName stageName runName : String)
      (iter wfuel : Nat) (cs : List KContainer) (i : Nat) (pod : Pod)
      (tick : Nat) (p : Pod) (t : Nat) (evs : List LogEvent) (e : JError),
      streamPodContainers env ns buildName stageName runName iter wfuel
        i pod cs tick = some (p, t, evs, some e) →
      isWriterWrap e) :=
  ⟨tekton_paList_error_propagates, tekton_prList_error_discarded,
   runNames_error_propagates, buildPods_error_propagates,
   fun env ns b sn rn iter wfuel cs i pod tick p t evs e h =>
     streamPodContainers_error_is_writer_error env ns b sn rn iter wfuel
       cs i pod tick p t evs e h⟩

/-- Matcher environment whose PipelineRuns list query fails. -/
def fxTEnvPrFail : TektonEnv :=
  ⟨.ok [fxPa], .error (.msg "pipelineruns list failed")⟩

/-- A matching pod of run `r1` whose container has not started. -/
def fxPodUnstarted : Pod :=
  ⟨"pp", 5,
   [("owner", "acme"), ("repository", "widgets"), ("branch", "master"),
    ("build", "7"), ("tekton.dev/pipelineRun", "r1"),
    ("jenkins.io/task-stage-name", "s")],
   .running, [⟨"c0", false⟩]⟩

/-- Environment whose pod `Get` always fails. -/
def fxEnvPodGetFail : StreamEnv :=
  ⟨fun _ => .ok [fxRun], fun _ => .ok [fxPodUnstarted],
   fun _ _ => .error (.msg "boom"), fun _ => .ok (), fun _ _ _ => .ok ()⟩

/-- C4 counterexample: at concrete inputs, a failing PipelineRuns list makes
`GetTektonPipelinesWithActivePipelineActivity` *succeed* (no error result),
and a failing pod `Get` during the wait poll does not make
`GetRunningBuildLogs` return that error — the call completes with `ok`. -/
theorem c4_counterexample_errors_swallowed :
    GetTektonPipelinesWithActivePipelineActivity fxTEnvPrFail =
      .ok ([], [("acme/widgets/master #7", some fxPa)]) ∧
    runSummary (GetRunningBuildLogs fxEnvPodGetFail fxPa "b" 2 3) =
      some (1, .ok ()) := by
  exact ⟨by decide, by decide⟩

/-- Witness for the amended C4 at the concrete failing PipelineRuns list. -/
theorem c4_amended_error_propagation_witness :
    GetTektonPipelinesWithActivePipelineActivity fxTEnvPrFail =
      .ok ([], initPaMap [fxPa]) :=
  c4_amended_error_propagation.2.1 fxTEnvPrFail [fxPa]
    (.msg "pipelineruns list failed") rfl rfl

/- ----------------------------------------------------------------------
C5: behaviour on a failed pod
---------------------------------------------------------------------- -/

/-- On a pod whose phase is failed, `waitForContainerToStart` returns
immediately without error, warning on the process log (source lines
963-966). -/
theorem wait_failed_pod (env : StreamEnv) (pod : Pod) (idx wfuel tick : Nat)
    (h : pod.phase = .failed) :
    waitForContainerToStart env pod idx wfuel tick =
      some (pod, none, tick,
        [.processWarn ("pod " ++ pod.name ++ " has failed")]) := by
  simp [waitForContainerToStart, h]

/-- On a failed pod with a succeeding writer, the container loop streams
*every* container: for each one, a process-log warning, a header line and a
`StreamLog` call — no short-circuit, and no error. -/
theorem spc_failed_pod_streams_all (env : StreamEnv)
    (ns buildName stageName runName : String) (iter wfuel : Nat) (pod : Pod)
    (hph : pod.phase = .failed)
    (hw : ∀ s, env.writeLog s = .ok ())
    (hs : ∀ n p c, env.streamLog n p c = .ok ()) :
    ∀ (cs : List KContainer) (i tick : Nat),
      streamPodContainers env ns buildName stageName runName iter wfuel
        i pod cs tick =
      some (pod, tick,
        cs.flatMap (fun ic =>
          [.processWarn ("pod " ++ pod.name ++ " has failed"),
           .headerLine iter runName (showingLine buildName stageName ic.name),
           .streamCall iter runName pod.name ic.name]), none) := by
  intro cs
  induction cs with
  | nil => intro i tick; simp [streamPodContainers]
  | cons ic rest ih =>
    intro i tick
    simp only [streamPodContainers, wait_failed_pod env pod i wfuel tick hph,
      hw, hs, ih, List.flatMap_cons, List.append_assoc, List.cons_append,
      List.nil_append, List.singleton_append]

/-- C5 amended: while waiting for a sub-task of a pod observed in failed
phase, the streamer returns immediately with no error and a warning on the
*process log* (not the writer); it does *not* short-circuit the remaining
sub-tasks — with a succeeding writer it emits a header line and a `StreamLog`
call for every sub-task of the failed pod. -/
theorem c5_amended_failed_pod_keeps_streaming :
    (∀ (env : StreamEnv) (pod : Pod) (idx wfuel tick : Nat),
      pod.phase = .failed →
      waitForContainerToStart env pod idx wfuel tick =
        some (pod, none, tick,
          [.processWarn ("pod " ++ pod.name ++ " has failed")])) ∧
    (∀ (env : StreamEnv) (ns buildName stageName runName : String)
      (iter wfuel : Nat) (pod : Pod),
      pod.phase = .failed →
      (∀ s, env.writeLog s = .ok ()) →
      (∀ n p c, env.streamLog n p c = .ok ()) →
      ∀ (cs : List KContainer) (i tick : Nat),
        streamPodContainers env ns buildName stageName runName iter wfuel
          i pod cs tick =
        some (pod, tick,
          cs.flatMap (fun ic =>
            [.processWarn ("pod " ++ pod.name ++ " has failed"),
             .headerLine iter runName (showingLine buildName stageName ic.name),
             .streamCall iter runName pod.name ic.name]), none)) :=
  ⟨fun env pod idx wfuel tick h => wait_failed_pod env pod idx wfuel tick h,
   fun env ns b sn rn iter wfuel pod hph hw hs =>
     spc_failed_pod_streams_all env ns b sn rn iter wfuel pod hph hw hs⟩

/-- A failed pod of run `r1` with two unstarted containers. -/
def fxFailedPod : Pod :=
  ⟨"pf", 5,
   [("owner", "acme"), ("repository", "widgets"), ("branch", "master"),
    ("build", "7"), ("tekton.dev/pipelineRun", "r1"),
    ("jenkins.io/task-stage-name", "s")],
   .failed, [⟨"c0", false⟩, ⟨"c1", false⟩]⟩

/-- Environment containing only the failed pod. -/
def fxEnvFailedPod : StreamEnv :=
  ⟨fun _ => .ok [fxRun], fun _ => .ok [fxFailedPod],
   fun _ _ => .ok fxFailedPod, fun _ => .ok (), fun _ _ _ => .ok ()⟩

/-- C5 counterexample: on a concrete failed pod with two sub-tasks, the call
emits the failure warning on the process log only (never through the writer),
still emits header lines and `StreamLog` calls for *both* sub-tasks (no
short-circuit), and returns success. -/
theorem c5_counterexample_failed_pod_not_short_circuited :
    GetRunningBuildLogs fxEnvFailedPod fxPa "b" 2 3 =
      some ⟨1,
        [.processWarn "pod pf has failed",
         .headerLine 1 "r1" (showingLine "b" "s" "c0"),
         .streamCall 1 "r1" "pf" "c0",
         .processWarn "pod pf has failed",
         .headerLine 1 "r1" (showingLine "b" "s" "c1"),
         .streamCall 1 "r1" "pf" "c1"],
        .ok ()⟩ := by
  decide

/-- Witness for the amended C5 at the concrete failed pod. -/
theorem c5_amended_failed_pod_keeps_streaming_witness :
    waitForContainerToStart fxEnvFailedPod fxFailedPod 0 1 0 =
      some (fxFailedPod, none, 0, [.processWarn "pod pf has failed"]) :=
  c5_amended_failed_pod_keeps_streaming.1 fxEnvFailedPod fxFailedPod 0 1 0 rfl

/- ----------------------------------------------------------------------
C3: same-key runs with different contexts
---------------------------------------------------------------------- -/

theorem ne_self_append_space (s t : String) : s ≠ s ++ " " ++ t := by
  intro h
  have hl := congrArg String.length h
  have h1 : " ".length = 1 := rfl
  simp [String.length_append, h1] at hl
  omega

theorem append_space_ne_self (s t : String) : s ++ " " ++ t ≠ s :=
  fun h => ne_self_append_space s t h.symm

theorem beq_self_append_space (s t : String) : (s == s ++ " " ++ t) = false :=
  beq_eq_false_iff_ne.mpr (ne_self_append_space s t)

theorem append_space_beq_self (s t : String) : ((s ++ " " ++ t) == s) = false :=
  beq_eq_false_iff_ne.mpr (append_space_ne_self s t)

/-- An activity whose labels and build number give a parametric canonical
key. -/
def c3Pa (o rep br bld : String) : PipelineActivity :=
  ⟨"pa", "jx", "", "", "", bld, [("owner", o), ("repository", rep), ("branch", br)]⟩

/-- A run with the given context label, sharing the activity's canonical
key. -/
def c3Run (nm : String) (ts : Nat) (o rep br bld ctx : String) : PipelineRun :=
  ⟨nm, ts,
   [("owner", o), ("repo", rep), ("branch", br), ("build", bld), ("context", ctx)],
   []⟩

/-- Two runs sharing the canonical key, differing only in context (and
creation time), with one matching activity. -/
def c3Env (o rep br bld ctx1 ctx2 : String) (ts1 ts2 : Nat) : TektonEnv :=
  ⟨.ok [c3Pa o rep br bld],
   .ok [c3Run "r1" ts1 o rep br bld ctx1, c3Run "r2" ts2 o rep br bld ctx2]⟩

/-- The shared canonical key of `c3Pa` and both `c3Run`s. -/
def c3Key (o rep br bld : String) : String :=
  strToLower (o ++ "/" ++ rep ++ "/" ++ br ++ " #" ++ bld)

/-- C3 amended: of two runs sharing owner/repo/branch/build but carrying
different context labels, only the most recent one yields a (single)
disambiguated name — the second is skipped because the plain-key map entry
was replaced by the first — and that name maps to the execution record. -/
theorem c3_amended_only_first_run_disambiguated
    (o rep br bld ctx1 ctx2 : String) (ts1 ts2 : Nat)
    (hrep : rep ≠ "") (hbld : bld ≠ "") (hts : ts2 ≤ ts1) :
    GetTektonPipelinesWithActivePipelineActivity
        (c3Env o rep br bld ctx1 ctx2 ts1 ts2) =
      .ok ([c3Key o rep br bld ++ " " ++ ctx1],
           [(c3Key o rep br bld ++ " " ++ ctx1, some (c3Pa o rep br bld))]) := by
  have hkey1 : runCanonicalKey (c3Run "r1" ts1 o rep br bld ctx1) =
      c3Key o rep br bld := by
    simp [runCanonicalKey, c3Run, createPipelineActivityName, lookupD,
      List.find?, hbld, c3Key]
  have hkey2 : runCanonicalKey (c3Run "r2" ts2 o rep br bld ctx2) =
      c3Key o rep br bld := by
    simp [runCanonicalKey, c3Run, createPipelineActivityName, lookupD,
      List.find?, hbld, c3Key]
  have hctx1 : lookupD (c3Run "r1" ts1 o rep br bld ctx1).labels "context" = ctx1 := by
    simp [c3Run, lookupD, List.find?]
  have hinit : initPaMap [c3Pa o rep br bld] =
      [(c3Key o rep br bld, some (c3Pa o rep br bld))] := by
    simp [initPaMap, mapInsert, c3Pa, createPipelineActivityName, lookupD,
      List.find?, hrep, c3Key]
  have hsort : tektonSortedPRs (c3Env o rep br bld ctx1 ctx2 ts1 ts2) =
      [c3Run "r1" ts1 o rep br bld ctx1, c3Run "r2" ts2 o rep br bld ctx2] := by
    simp [tektonSortedPRs, tektonPRItems, c3Env, List.insertionSort,
      List.orderedInsert, c3Run, hts]
  have hstep1 : tektonStep
      ⟨[], [(c3Key o rep br bld, some (c3Pa o rep br bld))], []⟩
      (c3Run "r1" ts1 o rep br bld ctx1) =
      ⟨[c3Key o rep br bld ++ " " ++ ctx1],
       [(c3Key o rep br bld ++ " " ++ ctx1, some (c3Pa o rep br bld))],
       [c3Run "r1" ts1 o rep br bld ctx1]⟩ := by
    simp [tektonStep, hkey1, hctx1, mapLookup, List.find?,
      replacePipelineActivityNameWithEnrichedName, mapInsert, mapDelete,
      beq_self_append_space, append_space_beq_self, ne_self_append_space,
      append_space_ne_self]
  have hstep2 : tektonStep
      ⟨[c3Key o rep br bld ++ " " ++ ctx1],
       [(c3Key o rep br bld ++ " " ++ ctx1, some (c3Pa o rep br bld))],
       [c3Run "r1" ts1 o rep br bld ctx1]⟩
      (c3Run "r2" ts2 o rep br bld ctx2) =
      ⟨[c3Key o rep br bld ++ " " ++ ctx1],
       [(c3Key o rep br bld ++ " " ++ ctx1, some (c3Pa o rep br bld))],
       [c3Run "r1" ts1 o rep br bld ctx1]⟩ := by
    simp [tektonStep, hkey2, mapLookup, List.find?, append_space_beq_self,
      append_space_ne_self]
  have hpaL : (c3Env o rep br bld ctx1 ctx2 ts1 ts2).paList =
      Except.ok [c3Pa o rep br bld] := rfl
  simp only [GetTektonPipelinesWithActivePipelineActivity]
  simp only [hpaL]
  rw [hsort, hinit]
  simp only [List.foldl_cons, List.foldl_nil, hstep1, hstep2]

/-- Concrete activity for the C3 counterexample. -/
def fxTPa : PipelineActivity :=
  ⟨"pa1", "jx", "", "", "", "7",
   [("owner", "acme"), ("repository", "widgets"), ("branch", "master")]⟩

/-- Two concrete same-key runs with contexts `ctx-a` and `ctx-b`. -/
def fxTEnvTwoCtx : TektonEnv :=
  ⟨.ok [fxTPa],
   .ok [c3Run "r1" 2 "acme" "widgets" "master" "7" "ctx-a",
        c3Run "r2" 1 "acme" "widgets" "master" "7" "ctx-b"]⟩

/-- C3 counterexample: with two runs sharing owner/repo/branch/build and
differing contexts, the matcher returns only ONE disambiguated name (for the
most recent run), not two — the second run no longer finds the plain key in
the map. -/
theorem c3_counterexample_second_run_skipped :
    GetTektonPipelinesWithActivePipelineActivity fxTEnvTwoCtx =
      .ok (["acme/widgets/master #7 ctx-a"],
           [("acme/widgets/master #7 ctx-a", some fxTPa)]) := by
  decide

/-- Witness for the amended C3 at concrete label values. -/
theorem c3_amended_only_first_run_disambiguated_witness :
    GetTektonPipelinesWithActivePipelineActivity
        (c3Env "acme" "widgets" "master" "7" "ctx-a" "ctx-b" 2 1) =
      .ok ([c3Key "acme" "widgets" "master" "7" ++ " " ++ "ctx-a"],
           [(c3Key "acme" "widgets" "master" "7" ++ " " ++ "ctx-a",
             some (c3Pa "acme" "widgets" "master" "7"))]) :=
  c3_amended_only_first_run_disambiguated "acme" "widgets" "master" "7"
    "ctx-a" "ctx-b" 2 1 (by decide) (by decide) (by decide)

/- ----------------------------------------------------------------------
C9: names ordered by creation timestamp, descending
---------------------------------------------------------------------- -/

instance : IsTotal PipelineRun (fun a b => b.creationTs ≤ a.creationTs) :=
  ⟨fun a b => le_total b.creationTs a.creationTs⟩

instance : IsTrans PipelineRun (fun a b => b.creationTs ≤ a.creationTs) :=
  ⟨fun _ _ _ hab hbc => le_trans hbc hab⟩

/-- The matching fold appends exactly one name per matched run, in processing
order, and the matched runs form a sub-sequence of the processed runs. -/
theorem tektonFold_spec :
    ∀ (prs : List PipelineRun) (acc : TektonAcc),
      ∃ newMatched : List PipelineRun,
        newMatched.Sublist prs ∧
        (prs.foldl tektonStep acc).matched = acc.matched ++ newMatched ∧
        (prs.foldl tektonStep acc).names =
          acc.names ++ newMatched.map enrichedRunName := by
  intro prs
  induction prs with
  | nil => intro acc; exact ⟨[], List.Sublist.refl [], by simp, by simp⟩
  | cons pr rest ih =>
    intro acc
    rw [List.foldl_cons]
    cases hm : mapLookup acc.paMap (runCanonicalKey pr) with
    | some pa =>
      obtain ⟨nm, hsub, hm', hn'⟩ := ih (tektonStep acc pr)
      have hstepM : (tektonStep acc pr).matched = acc.matched ++ [pr] := by
        simp [tektonStep, hm]
      have hstepN : (tektonStep acc pr).names =
          acc.names ++ [enrichedRunName pr] := by
        simp [tektonStep, hm, enrichedRunName]
      refine ⟨pr :: nm, hsub.cons₂ pr, ?_, ?_⟩
      · rw [hm', hstepM]
        simp
      · rw [hn', hstepN]
        simp
    | none =>
      have hstep : tektonStep acc pr = acc := by simp [tektonStep, hm]
      obtain ⟨nm, hsub, hm', hn'⟩ := ih acc
      rw [hstep]
      exact ⟨nm, hsub.cons pr, hm', hn'⟩

/-- C9 (confirmed): the names returned by
`GetTektonPipelinesWithActivePipelineActivity` are exactly the disambiguated
names of the matched runs, and those matched runs are ordered by creation
timestamp, descending (most recent first). -/
theorem c9_names_sorted_desc (env : TektonEnv) :
    tektonNames env = (tektonMatched env).map enrichedRunName ∧
      (tektonMatched env).Pairwise (fun a b => b.creationTs ≤ a.creationTs) := by
  cases hpa : env.paList with
  | error e =>
    constructor
    · simp [tektonNames, tektonMatched, GetTektonPipelinesWithActivePipelineActivity, hpa]
    · simp [tektonMatched, hpa]
  | ok pas =>
    obtain ⟨nm, hsub, hm, hn⟩ :=
      tektonFold_spec (tektonSortedPRs env) ⟨[], initPaMap pas, []⟩
    have hmatched : tektonMatched env = nm := by
      simp only [tektonMatched, hpa]
      rw [hm]
      simp
    have hnames : tektonNames env = nm.map enrichedRunName := by
      simp only [tektonNames, GetTektonPipelinesWithActivePipelineActivity, hpa]
      rw [hn]
      simp
    constructor
    · rw [hnames, hmatched]
    · rw [hmatched]
      have hsorted : (tektonSortedPRs env).Pairwise
          (fun a b => b.creationTs ≤ a.creationTs) :=
        List.sorted_insertionSort _ _
      exact hsorted.sublist hsub

/- ----------------------------------------------------------------------
C1: every run name is streamed in at most one iteration
---------------------------------------------------------------------- -/

/-- `waitForContainerToStart` only produces waiting lines and process-log
warnings — never header lines or `StreamLog` calls. -/
theorem wait_events_shape (env : StreamEnv) (pod : Pod) (idx wfuel tick : Nat)
    (p : Pod) (e : Option JError) (t' : Nat) (evs : List LogEvent)
    (h : waitForContainerToStart env pod idx wfuel tick = some (p, e, t', evs)) :
    ∀ ev ∈ evs, (∃ s, ev = .processWarn s) ∨ (∃ s, ev = .waitLine s) := by
  rw [waitForContainerToStart] at h
  split at h
  · simp only [Option.some.injEq, Prod.mk.injEq] at h
    obtain ⟨-, -, -, hevs⟩ := h
    intro ev hev
    rw [← hevs] at hev
    simp only [List.mem_singleton] at hev
    exact Or.inl ⟨_, hev⟩
  · split at h
    · simp only [Option.some.injEq, Prod.mk.injEq] at h
      obtain ⟨-, -, -, hevs⟩ := h
      intro ev hev
      rw [← hevs] at hev
      simp at hev
    · split at h
      · cases h
      · split at h
        · simp only [Option.some.injEq, Prod.mk.injEq] at h
          obtain ⟨-, -, -, hevs⟩ := h
          intro ev hev
          rw [← hevs] at hev
          simp only [List.mem_singleton] at hev
          exact Or.inr ⟨_, hev⟩
        · simp only [Option.some.injEq, Prod.mk.injEq] at h
          obtain ⟨-, -, -, hevs⟩ := h
          intro ev hev
          rw [← hevs] at hev
          simp only [List.mem_cons, List.not_mem_nil, or_false] at hev
          rcases hev with rfl | rfl
          · exact Or.inr ⟨_, rfl⟩
          · exact Or.inl ⟨_, rfl⟩

/-- Every `streamCall` event produced by the container loop carries exactly
the iteration and run name it was invoked with. -/
theorem spc_streamCalls_tagged (env : StreamEnv)
    (ns buildName stageName runName : String) (iter wfuel : Nat) :
    ∀ (cs : List KContainer) (i : Nat) (pod : Pod) (tick : Nat)
      (p : Pod) (t : Nat) (evs : List LogEvent) (r : Option JError),
      streamPodContainers env ns buildName stageName runName iter wfuel
        i pod cs tick = some (p, t, evs, r) →
      ∀ j rn pn cn, LogEvent.streamCall j rn pn cn ∈ evs →
        j = iter ∧ rn = runName := by
  intro cs
  induction cs with
  | nil =>
    intro i pod tick p t evs r h
    rw [streamPodContainers] at h
    simp only [Option.some.injEq, Prod.mk.injEq] at h
    obtain ⟨-, -, hevs, -⟩ := h
    intro j rn pn cn hin
    rw [← hevs] at hin
    simp at hin
  | cons ic rest ih =>
    intro i pod tick p t evs r h
    rw [streamPodContainers] at h
    split at h
    · cases h
    · rename_i out pod' werr tick' evs₁ hwait
      split at h
      · simp only [Option.some.injEq, Prod.mk.injEq] at h
        obtain ⟨-, -, hevs, -⟩ := h
        intro j rn pn cn hin
        rw [← hevs] at hin
        rcases List.mem_append.mp hin with hin | hin
        · rcases wait_events_shape env pod i wfuel tick pod' werr tick' evs₁
            hwait _ hin with ⟨s, hs⟩ | ⟨s, hs⟩ <;> cases hs
        · simp at hin
      · split at h
        · simp only [Option.some.injEq, Prod.mk.injEq] at h
          obtain ⟨-, -, hevs, -⟩ := h
          intro j rn pn cn hin
          rw [← hevs] at hin
          rcases List.mem_append.mp hin with hin | hin
          · rcases wait_events_shape env pod i wfuel tick pod' werr tick' evs₁
              hwait _ hin with ⟨s, hs⟩ | ⟨s, hs⟩ <;> cases hs
          · simp only [List.mem_cons, List.not_mem_nil, or_false] at hin
            rcases hin with hin | hin
            · cases hin
            · cases hin
              exact ⟨rfl, rfl⟩
        · split at h
          · cases h
          · rename_i podF tickF evsF r' hrec
            simp only [Option.some.injEq, Prod.mk.injEq] at h
            obtain ⟨-, -, hevs, -⟩ := h
            intro j rn pn cn hin
            rw [← hevs] at hin
            rcases List.mem_append.mp hin with hin | hin
            · rcases List.mem_append.mp hin with hin | hin
              · rcases wait_events_shape env pod i wfuel tick pod' werr tick'
                  evs₁ hwait _ hin with ⟨s, hs⟩ | ⟨s, hs⟩ <;> cases hs
              · simp only [List.mem_cons, List.not_mem_nil, or_false] at hin
                rcases hin with hin | hin
                · cases hin
                · cases hin
                  exact ⟨rfl, rfl⟩
            · exact ih _ _ _ _ _ _ _ hrec j rn pn cn hin

/-- `processPods`: the seen-set only grows, and each `streamCall` event is
tagged with the current iteration, a run name not yet logged, and that run
name ends up in the final seen-set. -/
theorem processPods_events (env : StreamEnv) (pa : PipelineActivity)
    (buildName : String) (iter wfuel : Nat) (logged : List String) :
    ∀ (pods : List Pod) (seen : List String) (found : Bool) (tick : Nat)
      (seenF : List String) (foundF : Bool) (tickF : Nat)
      (evs : List LogEvent) (r : Option JError),
      processPods env pa buildName iter wfuel logged pods seen found tick =
        some (seenF, foundF, tickF, evs, r) →
      (∀ x ∈ seen, x ∈ seenF) ∧
      (∀ j rn pn cn, LogEvent.streamCall j rn pn cn ∈ evs →
        j = iter ∧ rn ∉ logged ∧ rn ∈ seenF) := by
  intro pods
  induction pods with
  | nil =>
    intro seen found tick seenF foundF tickF evs r h
    rw [processPods] at h
    simp only [Option.some.injEq, Prod.mk.injEq] at h
    obtain ⟨hseen, -, -, hevs, -⟩ := h
    subst hseen
    constructor
    · exact fun x hx => hx
    · intro j rn pn cn hin
      rw [← hevs] at hin
      simp at hin
  | cons pod rest ih =>
    intro seen found tick seenF foundF tickF evs r h
    rw [processPods] at h
    split at h
    · rename_i hc
      split at h
      · cases h
      · rename_i out tick' evs₁ e hspc
        simp only [Option.some.injEq, Prod.mk.injEq] at h
        obtain ⟨hseen, -, -, hevs, -⟩ := h
        constructor
        · intro x hx
          rw [← hseen]
          exact subset_insertIfAbsent _ hx
        · intro j rn pn cn hin
          rw [← hevs] at hin
          obtain ⟨hj, hrn⟩ := spc_streamCalls_tagged env pa.ns buildName
            (lookupD pod.labels "jenkins.io/task-stage-name")
            (lookupD pod.labels labelPipelineRunName) iter wfuel
            (getContainers pod) 0 pod tick _ _ _ _ hspc j rn pn cn hin
          subst hrn
          refine ⟨hj, hc.1, ?_⟩
          rw [← hseen]
          exact mem_insertIfAbsent.mpr (Or.inr rfl)
      · rename_i out tick' evs₁ hspc
        split at h
        · cases h
        · rename_i out' seenR foundR tickR evsR rR hrec
          simp only [Option.some.injEq, Prod.mk.injEq] at h
          obtain ⟨hseen, -, -, hevs, -⟩ := h
          obtain ⟨hsub, htag⟩ := ih _ _ _ _ _ _ _ _ hrec
          constructor
          · intro x hx
            rw [← hseen]
            exact hsub x (subset_insertIfAbsent _ hx)
          · intro j rn pn cn hin
            rw [← hevs] at hin
            rcases List.mem_append.mp hin with hin | hin
            · obtain ⟨hj, hrn⟩ := spc_streamCalls_tagged env pa.ns buildName
                (lookupD pod.labels "jenkins.io/task-stage-name")
                (lookupD pod.labels labelPipelineRunName) iter wfuel
                (getContainers pod) 0 pod tick _ _ _ _ hspc j rn pn cn hin
              subst hrn
              refine ⟨hj, hc.1, ?_⟩
              rw [← hseen]
              exact hsub _ (mem_insertIfAbsent.mpr (Or.inr rfl))
            · obtain ⟨hj, hnl, hs⟩ := htag j rn pn cn hin
              rw [← hseen]
              exact ⟨hj, hnl, hs⟩
    · exact ih _ _ _ _ _ _ _ _ h

/-- No run name is streamed in two different iterations. -/
def AtMostOneIter (evs : List LogEvent) : Prop :=
  ∀ j rn pn cn j' pn' cn',
    LogEvent.streamCall j rn pn cn ∈ evs →
    LogEvent.streamCall j' rn pn' cn' ∈ evs → j = j'

/-- Every run name already streamed is recorded in the logged set. -/
def StreamedMarked (evs : List LogEvent) (logged : List String) : Prop :=
  ∀ j rn pn cn, LogEvent.streamCall j rn pn cn ∈ evs → rn ∈ logged

theorem atMostOne_append {evs₁ evs₂ : List LogEvent} {logged : List String}
    {iter : Nat}
    (h1 : AtMostOneIter evs₁)
    (hm : StreamedMarked evs₁ logged)
    (h2 : ∀ j rn pn cn, LogEvent.streamCall j rn pn cn ∈ evs₂ →
      j = iter ∧ rn ∉ logged) :
    AtMostOneIter (evs₁ ++ evs₂) := by
  intro j rn pn cn j' pn' cn' hin hin'
  rcases List.mem_append.mp hin with h | h <;>
    rcases List.mem_append.mp hin' with h' | h'
  · exact h1 _ _ _ _ _ _ _ h h'
  · exact absurd (hm _ _ _ _ h) (h2 _ _ _ _ h').2
  · exact absurd (hm _ _ _ _ h') (h2 _ _ _ _ h).2
  · rw [(h2 _ _ _ _ h).1, (h2 _ _ _ _ h').1]

/-- One loop iteration preserves the two invariants; on a normal exit the
newly streamed run names are merged into the logged set. -/
theorem runIteration_preserves (env : StreamEnv) (pa : PipelineActivity)
    (buildName : String) (wfuel : Nat) (st st' : LoopState)
    (out : Except JError (List String))
    (hSM : StreamedMarked st.events st.logged)
    (hA : AtMostOneIter st.events)
    (h : runIteration env pa buildName wfuel st = some (st', out)) :
    AtMostOneIter st'.events ∧
      (∀ names', out = .ok names' → StreamedMarked st'.events st'.logged) := by
  rw [runIteration] at h
  split at h
  · simp only [Option.some.injEq, Prod.mk.injEq] at h
    obtain ⟨hst, hout⟩ := h
    subst hst
    constructor
    · exact hA
    · intro names' hn
      rw [← hout] at hn
      cases hn
  · split at h
    · cases h
    · rename_i out₁ found tick' evs e hpp
      simp only [Option.some.injEq, Prod.mk.injEq] at h
      obtain ⟨hst, hout⟩ := h
      subst hst
      obtain ⟨-, htag⟩ := processPods_events env pa buildName (st.iter + 1)
        wfuel st.logged _ _ _ _ _ _ _ _ _ hpp
      constructor
      · exact atMostOne_append hA hSM
          (fun j rn pn cn hin => ⟨(htag j rn pn cn hin).1, (htag j rn pn cn hin).2.1⟩)
      · intro names' hn
        rw [← hout] at hn
        cases hn
    · rename_i out₁ seen found tick' evs hpp
      obtain ⟨-, htag⟩ := processPods_events env pa buildName (st.iter + 1)
        wfuel st.logged _ _ _ _ _ _ _ _ _ hpp
      split at h
      · simp only [Option.some.injEq, Prod.mk.injEq] at h
        obtain ⟨hst, hout⟩ := h
        subst hst
        constructor
        · exact atMostOne_append hA hSM
            (fun j rn pn cn hin => ⟨(htag j rn pn cn hin).1, (htag j rn pn cn hin).2.1⟩)
        · intro names' hn
          rw [← hout] at hn
          cases hn
      · simp only [Option.some.injEq, Prod.mk.injEq] at h
        obtain ⟨hst, hout⟩ := h
        subst hst
        constructor
        · exact atMostOne_append hA hSM
            (fun j rn pn cn hin => ⟨(htag j rn pn cn hin).1, (htag j rn pn cn hin).2.1⟩)
        · intro names' hn
          intro j rn pn cn hin
          rcases List.mem_append.mp hin with hin | hin
          · exact mem_mergeLogged.mpr (Or.inl (hSM _ _ _ _ hin))
          · exact mem_mergeLogged.mpr (Or.inr (htag _ _ _ _ hin).2.2)

/-- The loop preserves `AtMostOneIter` through any number of iterations. -/
theorem runLoop_atMostOne (env : StreamEnv) (pa : PipelineActivity)
    (buildName : String) (wfuel : Nat) :
    ∀ (fuel : Nat) (names : List String) (st : LoopState) (res : RunResult),
      StreamedMarked st.events st.logged →
      AtMostOneIter st.events →
      runLoop env pa buildName wfuel fuel names st = some res →
      AtMostOneIter res.events := by
  intro fuel
  induction fuel with
  | zero =>
    intro names st res hSM hA h
    rw [runLoop] at h
    split at h
    · cases h
      exact hA
    · cases h
  | succ n ih =>
    intro names st res hSM hA h
    rw [runLoop] at h
    split at h
    · cases h
      exact hA
    · split at h
      · cases h
      · rename_i st' e heq
        cases h
        exact (runIteration_preserves env pa buildName wfuel st st' _ hSM hA heq).1
      · rename_i st' names' heq
        have hpres := runIteration_preserves env pa buildName wfuel st st' _
          hSM hA heq
        exact ih names' st' res (hpres.2 names' rfl) hpres.1 h

/-- C1 (confirmed): in any `GetRunningBuildLogs` call, for any run name, all
`StreamLog` invocations triggered by pods labelled with that run name happen
in a single loop iteration — once the name is merged into the logged set at
the end of an iteration, its pods are skipped in every later iteration. -/
theorem c1_at_most_once_per_run (env : StreamEnv) (pa : PipelineActivity)
    (buildName : String) (wfuel fuel : Nat) :
    ∀ j rn pn cn j' pn' cn',
      LogEvent.streamCall j rn pn cn ∈
        runEvents (GetRunningBuildLogs env pa buildName wfuel fuel) →
      LogEvent.streamCall j' rn pn' cn' ∈
        runEvents (GetRunningBuildLogs env pa buildName wfuel fuel) →
      j = j' := by
  cases hq : getPipelineRunNamesForActivity env 0 with
  | error e =>
    intro j rn pn cn j' pn' cn' hin hin'
    rw [GetRunningBuildLogs, hq] at hin
    simp [runEvents] at hin
  | ok names =>
    cases hr : runLoop env pa buildName wfuel fuel names ⟨[], false, 0, 0, []⟩ with
    | none =>
      intro j rn pn cn j' pn' cn' hin hin'
      simp [GetRunningBuildLogs, hq, hr, runEvents] at hin
    | some res =>
      have hres : GetRunningBuildLogs env pa buildName wfuel fuel = some res := by
        simp only [GetRunningBuildLogs, hq, hr]
      have hA : AtMostOneIter res.events :=
        runLoop_atMostOne env pa buildName wfuel fuel names ⟨[], false, 0, 0, []⟩
          res (fun j rn pn cn hin => by simp at hin)
          (fun j rn pn cn j' pn' cn' hin => by simp at hin) hr
      intro j rn pn cn j' pn' cn' hin hin'
      rw [hres] at hin hin'
      simp only [runEvents] at hin hin'
      exact hA j rn pn cn j' pn' cn' hin hin'

/-- Witness for C1: the happy-path call streams run `r1` (a concrete
`streamCall` event exists), and the theorem applies to it. -/
theorem c1_at_most_once_per_run_witness : (1 : Nat) = 1 :=
  c1_at_most_once_per_run fxEnvOk fxPa "b" 2 2 1 "r1" "p1" "step" 1 "p1" "step"
    (by decide) (by decide)

/- ----------------------------------------------------------------------
C7: one iteration when every run is immediately resolvable
---------------------------------------------------------------------- -/

/-- On a pod all of whose (remaining) containers have already started, the
container loop neither polls nor fails: same pod, same tick, no error. -/
theorem spc_all_started (env : StreamEnv)
    (ns buildName stageName runName : String) (iter wfuel : Nat)
    (hw : ∀ s, env.writeLog s = .ok ())
    (hs : ∀ n p c, env.streamLog n p c = .ok ()) :
    ∀ (cs : List KContainer) (i : Nat) (pod : Pod) (tick : Nat),
      (∀ k, pod.containers.get? (i + k) = cs.get? k) →
      (∀ c ∈ cs, c.started = true) →
      ∃ evs, streamPodContainers env ns buildName stageName runName iter wfuel
        i pod cs tick = some (pod, tick, evs, none) := by
  intro cs
  induction cs with
  | nil =>
    intro i pod tick _ _
    exact ⟨[], by rw [streamPodContainers]⟩
  | cons ic rest ih =>
    intro i pod tick hsuffix hall
    have hic : pod.containers.get? i = some ic := by
      have h0 := hsuffix 0
      simpa using h0
    have hstart : hasContainerStarted pod i = true := by
      unfold hasContainerStarted
      rw [hic]
      exact hall ic (List.mem_cons_self ic rest)
    have hwait : ∃ evw, waitForContainerToStart env pod i wfuel tick =
        some (pod, none, tick, evw) := by
      by_cases hph : pod.phase = .failed
      · exact ⟨_, wait_failed_pod env pod i wfuel tick hph⟩
      · refine ⟨[], ?_⟩
        rw [waitForContainerToStart, if_neg hph, if_pos hstart]
    obtain ⟨evw, hwait⟩ := hwait
    obtain ⟨evs, hrec⟩ := ih (i + 1) pod tick
      (fun k => by
        have h1 := hsuffix (k + 1)
        rw [show i + (k + 1) = i + 1 + k by omega] at h1
        simpa using h1)
      (fun c hc => hall c (List.mem_cons_of_mem ic hc))
    refine ⟨evw ++ [.headerLine iter runName (showingLine buildName stageName ic.name),
      .streamCall iter runName pod.name ic.name] ++ evs, ?_⟩
    simp only [streamPodContainers, hwait, hw, hs, hrec]

/-- `processPods` on a pod list whose matching pods are fully started: no
polling, no error; the final seen-set covers every matching unlogged pod's
run label; `foundLogs` is set when some matching unlogged pod exists. -/
theorem processPods_all_started (env : StreamEnv) (pa : PipelineActivity)
    (buildName : String) (iter wfuel : Nat) (logged : List String)
    (hw : ∀ s, env.writeLog s = .ok ())
    (hs : ∀ n p c, env.streamLog n p c = .ok ()) :
    ∀ (pods : List Pod) (seen : List String) (found : Bool) (tick : Nat),
      (∀ p ∈ pods, matchesActivity pa p = true →
        ∀ c ∈ p.containers, c.started = true) →
      ∃ seenF foundF evs,
        processPods env pa buildName iter wfuel logged pods seen found tick =
          some (seenF, foundF, tick, evs, none) ∧
        (∀ x ∈ seen, x ∈ seenF) ∧
        (∀ p ∈ pods, matchesActivity pa p = true →
          lookupD p.labels labelPipelineRunName ∉ logged →
          lookupD p.labels labelPipelineRunName ∈ seenF) ∧
        (seen.Nodup → seenF.Nodup) ∧
        (found = true → foundF = true) ∧
        ((∃ p ∈ pods, matchesActivity pa p = true ∧
          lookupD p.labels labelPipelineRunName ∉ logged) → foundF = true) := by
  intro pods
  induction pods with
  | nil =>
    intro seen found tick _
    refine ⟨seen, found, [], by rw [processPods], fun x hx => hx, ?_, fun h => h,
      fun h => h, ?_⟩
    · intro p hp
      cases hp
    · rintro ⟨p, hp, -⟩
      cases hp
  | cons pod rest ih =>
    intro seen found tick hstarted
    by_cases hc : lookupD pod.labels labelPipelineRunName ∉ logged ∧
        matchesActivity pa pod = true
    · obtain ⟨evs₁, hspc⟩ := spc_all_started env pa.ns buildName
        (lookupD pod.labels "jenkins.io/task-stage-name")
        (lookupD pod.labels labelPipelineRunName) iter wfuel hw hs
        (getContainers pod) 0 pod tick (fun k => by simp [getContainers])
        (hstarted pod (List.mem_cons_self pod rest) hc.2)
      obtain ⟨seenF, foundF, evsR, hrec, hsub, hcov, hnd, hfound, hex⟩ :=
        ih (insertIfAbsent seen (lookupD pod.labels labelPipelineRunName)) true
          tick (fun p hp => hstarted p (List.mem_cons_of_mem pod hp))
      refine ⟨seenF, foundF, evs₁ ++ evsR, ?_, ?_, ?_, ?_, ?_, ?_⟩
      · rw [processPods, if_pos hc]
        simp only [hspc, hrec]
      · intro x hx
        exact hsub x (subset_insertIfAbsent _ hx)
      · intro p hp hm hnl
        rcases List.mem_cons.mp hp with rfl | hp
        · exact hsub _ (mem_insertIfAbsent.mpr (Or.inr rfl))
        · exact hcov p hp hm hnl
      · intro h
        exact hnd (nodup_insertIfAbsent h _)
      · intro _
        exact hfound rfl
      · intro _
        exact hfound rfl
    · obtain ⟨seenF, foundF, evsR, hrec, hsub, hcov, hnd, hfound, hex⟩ :=
        ih seen found tick (fun p hp => hstarted p (List.mem_cons_of_mem pod hp))
      refine ⟨seenF, foundF, evsR, ?_, hsub, ?_, hnd, hfound, ?_⟩
      · rw [processPods, if_neg hc]
        exact hrec
      · intro p hp hm hnl
        rcases List.mem_cons.mp hp with rfl | hp
        · exact absurd ⟨hnl, hm⟩ hc
        · exact hcov p hp hm hnl
      · rintro ⟨p, hp, hm, hnl⟩
        rcases List.mem_cons.mp hp with rfl | hp
        · exact absurd ⟨hnl, hm⟩ hc
        · exact hex ⟨p, hp, hm, hnl⟩

/-- C7 (confirmed): when the entry and recomputed run-name lists are nonempty
and duplicate-free, every recomputed run name has a matching pod in the first
build-pod listing, all matching pods' containers have already started, and
the writer succeeds, `GetRunningBuildLogs` terminates after exactly one loop
iteration with a clean return: after the first pass the logged set covers the
recomputed run-name list and the loop condition fails. -/
theorem c7_one_iteration (env : StreamEnv) (pa : PipelineActivity)
    (buildName : String) (wfuel fuel : Nat) (ns0 ns1 : List String)
    (ps : List Pod)
    (h0 : getPipelineRunNamesForActivity env 0 = .ok ns0) (h0ne : ns0 ≠ [])
    (h1 : getPipelineRunNamesForActivity env 1 = .ok ns1) (h1ne : ns1 ≠ [])
    (h1nd : ns1.Nodup)
    (hp : env.buildPods 0 = .ok ps)
    (hcover : ∀ n ∈ ns1, ∃ p ∈ ps,
      lookupD p.labels labelPipelineRunName = n ∧ matchesActivity pa p = true)
    (hstarted : ∀ p ∈ ps, matchesActivity pa p = true →
      ∀ c ∈ p.containers, c.started = true)
    (hw : ∀ s, env.writeLog s = .ok ())
    (hs : ∀ n p c, env.streamLog n p c = .ok ()) :
    runSummary (GetRunningBuildLogs env pa buildName wfuel (fuel + 1)) =
      some (1, .ok ()) := by
  have hperm := List.perm_insertionSort
    (fun a b : Pod => a.creationTs ≤ b.creationTs) ps
  obtain ⟨seenF, foundF, evs, hpp, hsub, hcov', hnd, hfound, hex⟩ :=
    processPods_all_started env pa buildName 1 wfuel [] hw hs
      (List.insertionSort (fun a b => a.creationTs ≤ b.creationTs) ps) [] false 0
      (fun p hp' => hstarted p (hperm.mem_iff.mp hp'))
  have hfoundT : foundF = true := by
    obtain ⟨n, hn⟩ := List.exists_mem_of_ne_nil ns1 h1ne
    obtain ⟨p, hpm, hlab, hmatch⟩ := hcover n hn
    exact hex ⟨p, hperm.mem_iff.mpr hpm, hmatch, by simp⟩
  have hit : runIteration env pa buildName wfuel ⟨[], false, 0, 0, []⟩ =
      some (⟨mergeLogged [] seenF, foundF, 1, 0, [] ++ evs⟩, .ok ns1) := by
    rw [runIteration]
    simp only [hp]
    rw [hpp]
    simp only [h1]
  have hcovF : ∀ n ∈ ns1, n ∈ mergeLogged [] seenF := by
    intro n hn
    obtain ⟨p, hpm, hlab, hmatch⟩ := hcover n hn
    refine mem_mergeLogged.mpr (Or.inr ?_)
    rw [← hlab]
    exact hcov' p (hperm.mem_iff.mpr hpm) hmatch (by simp)
  have hlen : ns1.length ≤ (mergeLogged [] seenF).length :=
    (List.subperm_of_subset h1nd hcovF).length_le
  simp only [GetRunningBuildLogs, h0]
  rw [runLoop_unfold]
  rw [if_neg (by simp [h0ne])]
  simp only [hit]
  rw [runLoop_unfold]
  rw [if_pos hlen]
  simp [runSummary, hfoundT]

/-- Witness for C7 at the concrete happy-path environment. -/
theorem c7_one_iteration_witness :
    runSummary (GetRunningBuildLogs fxEnvOk fxPa "b" 1 2) = some (1, .ok ()) :=
  c7_one_iteration fxEnvOk fxPa "b" 1 1 ["r1"] ["r1"] [fxPod]
    (by decide) (by decide) (by decide) (by decide) (by decide) (by decide)
    (by decide) (by decide) (fun _ => rfl) (fun _ _ _ => rfl)

end JxLogs
